import Mathlib

/-!
Verification of the fedbox storage engine (badger / boltdb / sqlite backends).

The definitions below are a shallow embedding of the Go source:
  storage/badger/repository.go   (the badger backend, the primary model)
  unnamed/part_001               (the boltdb backend; modelled where it differs)
  storage/sqlite/repository.go   (the sqlite backend)
Keys are byte strings, modelled as lists of characters; the badger keyspace is
an association list from keys to stored records.  Encoding and decoding of
items (jsonld.Marshal / pub.UnmarshalJSON) are modelled by a tagged record
type, so that decode after encode is the identity, and decoding a record of
the wrong shape fails, exactly as the JSON round trip does in the source.
-/

namespace Fedbox

/-- A key in the badger keyspace: a byte path, modelled as a list of
characters (the source manipulates go byte slices with the bytes package). -/
abbrev Key := List Char

/-- The path separator, the slash byte (var sep = []byte{'/'}). -/
def sepChar : Char := '/'

/-- The characters of the objectKey suffix (const objectKey = "__raw"). -/
def rawChars : Key := ['_', '_', 'r', 'a', 'w']

/-- The characters of the metaDataKey suffix (const metaDataKey = "__meta_data"). -/
def metaChars : Key := ['_', '_', 'm', 'e', 't', 'a', '_', 'd', 'a', 't', 'a']

/-- Is pre a prefix of k (bytes.HasPrefix / badger ValidForPrefix). -/
def keyHasPre : Key → Key → Bool
  | _, [] => true
  | [], _ :: _ => false
  | a :: as, b :: bs => a == b && keyHasPre as bs

/-- Is suf a suffix of k (bytes.HasSuffix). -/
def keyHasSuf (k suf : Key) : Bool := keyHasPre k.reverse suf.reverse

/-- bytes.TrimPrefix: drop pre from the front of k when it is a prefix,
otherwise return k unchanged. -/
def trimPre (k pre : Key) : Key := if keyHasPre k pre then k.drop pre.length else k

/-- bytes.TrimSuffix: drop suf from the end of k when it is a suffix,
otherwise return k unchanged. -/
def trimSuf (k suf : Key) : Key :=
  if keyHasSuf k suf then k.take (k.length - suf.length) else k

/-- bytes.Count(res, sep): the number of separator bytes in a key. -/
def countSep (k : Key) : Nat := (k.filter (fun c => c == sepChar)).length

/-- Split a key at separator bytes (bytes.Split(path, sep)). -/
def splitSeg : Key → List Key
  | [] => [[]]
  | c :: rest =>
    let r := splitSeg rest
    if c == sepChar then [] :: r
    else match r with
      | s :: ss => (c :: s) :: ss
      | [] => [[c]]

/-- Join segments with the separator byte (the inverse of splitSeg). -/
def joinSeg : List Key → Key
  | [] => []
  | [s] => s
  | s :: rest => s ++ sepChar :: joinSeg rest

/-- Normalise a byte path the way path.Join does for slash paths without dot
segments: split at slashes, discard empty segments, rejoin. -/
def cleanKey (k : Key) : Key := joinSeg ((splitSeg k).filter (fun s => !s.isEmpty))

/-- Scan for the scheme marker "://" and return the characters after it, when
present (models url.Parse splitting scheme://host/path into host and path). -/
def dropScheme : List Char → Option (List Char)
  | [] => none
  | ':' :: '/' :: '/' :: rest => some rest
  | _ :: rest => dropScheme rest

/-- itemPath (badger repository.go line 737): parse the IRI as a URL and join
its host and path components.  For a well formed scheme://host/path IRI this
is the cleaned host/path byte string; a scheme-less string is all path, as in
url.Parse. -/
def itemPath (iri : String) : Key :=
  cleanKey (match dropScheme iri.data with
    | some rest => rest
    | none => iri.data)

/-- getObjectKey (badger repository.go line 659): bytes.Join of the path and
the raw-object suffix with the separator. -/
def objKey (p : Key) : Key := p ++ sepChar :: rawChars

/-- getMetadataKey (badger repository.go line 267): bytes.Join of the path and
the metadata suffix with the separator. -/
def metaKey (p : Key) : Key := p ++ sepChar :: metaChars

/-- isObjectKey (badger repository.go line 579): the key ends with the raw
object suffix. -/
def isObjectKeyB (k : Key) : Bool := keyHasSuf k rawChars

/-- path.Base of a byte path: the last nonempty slash separated segment, or a
dot for an empty path. -/
def keyBase (k : Key) : Key :=
  match ((splitSeg k).filter (fun s => !s.isEmpty)).getLast? with
  | some s => s
  | none => ['.']

/-- iterKeyIsTooDeep (badger repository.go lines 588 to 593): trim the base
prefix plus separator and the object-key suffix from the key, and compare the
number of remaining separators against the permitted depth. -/
def iterTooDeep (base k : Key) (depth : Nat) : Bool :=
  countSep (trimSuf (trimPre k (base ++ [sepChar])) rawChars) > depth

/-- The activitypub actor types (pub.ActorTypes of the go-ap vocabulary). -/
def actorTypes : List String := ["Application", "Group", "Organization", "Person", "Service"]

/-- The activitypub activity types (pub.ActivityTypes of the go-ap vocabulary). -/
def activityTypes : List String :=
  ["Accept", "Add", "Announce", "Block", "Create", "Delete", "Dislike", "Flag",
   "Follow", "Ignore", "Invite", "Join", "Leave", "Like", "Listen", "Move",
   "Offer", "Read", "Reject", "Remove", "TentativeAccept", "TentativeReject",
   "Undo", "Update", "View"]

/-- The activitypub object types (pub.ObjectTypes of the go-ap vocabulary). -/
def objectTypes : List String :=
  ["Article", "Audio", "Document", "Event", "Image", "Note", "Page", "Place",
   "Profile", "Relationship", "Tombstone", "Video"]

/-- The activitypub collection types (go-ap IsCollection checks these). -/
def collectionTypes : List String :=
  ["Collection", "OrderedCollection", "CollectionPage", "OrderedCollectionPage"]

/-- The eight named activitypub collections (handlers.ActivityPubCollections). -/
def apCollections : List String :=
  ["inbox", "outbox", "followers", "following", "liked", "likes", "shares", "replies"]

/-- The fedbox root collections (ap.FedboxCollections: activities, actors, objects). -/
def fedboxCollections : List String := ["activities", "actors", "objects"]

/-- The public audience collection IRI (pub.PublicNS). -/
def publicNS : String := "https://www.w3.org/ns/activitystreams#Public"

/-- A stored item (go pub.Item): either a bare IRI reference (pub.IRI), a full
object record (pub.Object / Actor / Activity / Tombstone, flattened into one
constructor: identifier, type tag, audience, the five actor collections, the
three object collections, the activity participants, the tombstone fields and
the member list used when the object is itself a collection), or a plain item
collection (pub.ItemCollection, the decoding of a JSON array). -/
inductive Item where
  | link (iri : String)
  | obj (id : String) (typ : String) (toAud : List String)
        (inbox outbox followers following liked : Option Item)
        (replies likes shares : Option Item)
        (objF actF : Option Item)
        (formerTyp : Option String) (deletedAt : Option Nat)
        (citems : List Item)
  | items (l : List Item)

/-- pub.Item GetLink: the IRI of a link, the id of an object, empty for a bare
item collection. -/
def Item.getLinkStr : Item → String
  | .link i => i
  | .obj id _ _ _ _ _ _ _ _ _ _ _ _ _ _ _ => id
  | .items _ => ""

/-- pub.Item GetType: the type tag of an object, the Link type for an IRI,
empty for a bare item collection. -/
def Item.getTypeStr : Item → String
  | .link _ => "Link"
  | .obj _ typ _ _ _ _ _ _ _ _ _ _ _ _ _ _ => typ
  | .items _ => ""

/-- pub.Item IsObject. -/
def Item.isObjectB : Item → Bool
  | .obj _ _ _ _ _ _ _ _ _ _ _ _ _ _ _ _ => true
  | _ => false

/-- pub.Item IsLink / pub.IsIRI. -/
def Item.isLinkB : Item → Bool
  | .link _ => true
  | _ => false

/-- pub.Item IsCollection: a bare item collection, or an object whose type is
one of the collection types. -/
def Item.isCollectionB : Item → Bool
  | .items _ => true
  | .obj _ typ _ _ _ _ _ _ _ _ _ _ _ _ _ _ => collectionTypes.contains typ
  | .link _ => false

/-- The member list seen by pub.OnCollectionIntf. -/
def Item.colItems : Item → List Item
  | .items l => l
  | .obj _ _ _ _ _ _ _ _ _ _ _ _ _ _ _ ci => ci
  | .link _ => []

/-- The object field of an activity (pub.Activity Object). -/
def Item.objOf : Item → Option Item
  | .obj _ _ _ _ _ _ _ _ _ _ _ o _ _ _ _ => o
  | _ => none

/-- The actor field of an activity (pub.Activity Actor). -/
def Item.actOf : Item → Option Item
  | .obj _ _ _ _ _ _ _ _ _ _ _ _ a _ _ _ => a
  | _ => none

/-- The former type of a tombstone record. -/
def Item.formerOf : Item → Option String
  | .obj _ _ _ _ _ _ _ _ _ _ _ _ _ f _ _ => f
  | _ => none

/-- The deletion timestamp of a tombstone record. -/
def Item.deletedOf : Item → Option Nat
  | .obj _ _ _ _ _ _ _ _ _ _ _ _ _ _ d _ => d
  | _ => none

/-- The audience list of an object (the To recipients). -/
def Item.audOf : Item → List String
  | .obj _ _ t _ _ _ _ _ _ _ _ _ _ _ _ _ => t
  | _ => []

/-- Replace the object field of an activity (a.Object = ob). -/
def Item.setObjF : Item → Option Item → Item
  | .obj id ty t ib ob fw fg lk rp lx sh _ ac ft dl ci, v =>
      .obj id ty t ib ob fw fg lk rp lx sh v ac ft dl ci
  | it, _ => it

/-- Replace the actor field of an activity (a.Actor = ob). -/
def Item.setActF : Item → Option Item → Item
  | .obj id ty t ib ob fw fg lk rp lx sh oo _ ft dl ci, v =>
      .obj id ty t ib ob fw fg lk rp lx sh oo v ft dl ci
  | it, _ => it

/-- The names of the owned sub-collection fields, in the order the source
visits them. -/
inductive SubField where
  | inbox | outbox | followers | following | liked | replies | likes | shares
deriving DecidableEq

/-- The collection name of a sub-collection field (the handlers collection
type string). -/
def SubField.name : SubField → String
  | .inbox => "inbox"
  | .outbox => "outbox"
  | .followers => "followers"
  | .following => "following"
  | .liked => "liked"
  | .replies => "replies"
  | .likes => "likes"
  | .shares => "shares"

/-- Read an owned sub-collection field of an object. -/
def Item.getSub : Item → SubField → Option Item
  | .obj _ _ _ ib ob fw fg lk rp lx sh _ _ _ _ _, f =>
    match f with
    | .inbox => ib
    | .outbox => ob
    | .followers => fw
    | .following => fg
    | .liked => lk
    | .replies => rp
    | .likes => lx
    | .shares => sh
  | _, _ => none

/-- Write an owned sub-collection field of an object. -/
def Item.setSub : Item → SubField → Option Item → Item
  | .obj id ty t ib ob fw fg lk rp lx sh oo ac ft dl ci, f, v =>
    match f with
    | .inbox => .obj id ty t v ob fw fg lk rp lx sh oo ac ft dl ci
    | .outbox => .obj id ty t ib v fw fg lk rp lx sh oo ac ft dl ci
    | .followers => .obj id ty t ib ob v fg lk rp lx sh oo ac ft dl ci
    | .following => .obj id ty t ib ob fw v lk rp lx sh oo ac ft dl ci
    | .liked => .obj id ty t ib ob fw fg v rp lx sh oo ac ft dl ci
    | .replies => .obj id ty t ib ob fw fg lk v lx sh oo ac ft dl ci
    | .likes => .obj id ty t ib ob fw fg lk rp v sh oo ac ft dl ci
    | .shares => .obj id ty t ib ob fw fg lk rp lx v oo ac ft dl ci
  | it, _, _ => it

/-- The actor owned sub-collections, in source order (inbox, outbox,
followers, following, liked). -/
def actorSubs : List SubField := [.inbox, .outbox, .followers, .following, .liked]

/-- The object owned sub-collections, in source order (replies, likes, shares). -/
def objectSubs : List SubField := [.replies, .likes, .shares]

/-- go-ap IRI.Equals with checkScheme=false: two IRIs are equal when their
host and path components agree (the scheme is not compared). -/
def iriEqB (a b : String) : Bool := itemPath a == itemPath b

/-- pub.IRIs.Contains: membership under link equality. -/
def containsIRI (l : List String) (x : String) : Bool := l.any (fun i => iriEqB i x)

/-- The number of entries of a membership list whose IRI equals x under link
equality. -/
def countIRIEq (l : List String) (x : String) : Nat :=
  (l.filter (fun i => iriEqB i x)).length

/-- Remove the first entry equal to x under link equality, keeping the rest
(the RemoveFrom loop of badger repository.go lines 210 to 215, which breaks
after the first removal). -/
def removeFirstIRI (x : String) : List String → List String
  | [] => []
  | i :: rest => if iriEqB i x then rest else i :: removeFirstIRI x rest

/-- IRI.Contains(base, false): the base is a host plus path prefix of the IRI
(schemes not compared); models IsLocalIRI of the repositories. -/
def isLocalIRI (base iri : String) : Bool := keyHasPre (itemPath iri) (itemPath base)

/-- The bcrypt hash of a password: an opaque salted digest.  The model keeps
the salt and the hashed secret so that bcrypt.CompareHashAndPassword succeeds
exactly on the password the hash was generated from. -/
structure BHash where
  salt : Nat
  secret : String
deriving DecidableEq

/-- bcrypt.GenerateFromPassword with a caller supplied salt (the source draws
the salt nondeterministically; the model takes it as an argument). -/
def bcryptGenerate (salt : Nat) (pw : String) : BHash := ⟨salt, pw⟩

/-- bcrypt.CompareHashAndPassword: succeeds when the password matches the one
the hash was generated from. -/
def bcryptCompare (h : BHash) (pw : String) : Bool := h.secret == pw

/-- storage.Metadata: the credential blob, a password hash. -/
structure Metadata where
  pw : BHash
deriving DecidableEq

/-- A record stored at a badger key: the JSON encoding of an item
(jsonld.Marshal of a pub.Item), of a membership list (jsonld.Marshal of
pub.IRIs, also the emptyCollection placeholder), or of a metadata blob. -/
inductive Stored where
  | item (it : Item)
  | iris (l : List String)
  | meta (m : Metadata)

/-- pub.UnmarshalJSON on a stored record: an encoded item decodes to itself, an
encoded IRI array decodes to an item collection of bare links, and a metadata
blob does not decode to an item. -/
def decodeItem : Stored → Option Item
  | .item it => some it
  | .iris l => some (.items (l.map Item.link))
  | .meta _ => none

/-- The badger repository state: the configured base URL, the flat keyspace
(an association list from byte-path keys to stored records, iterated in list
order), and the read-through cache keyed by IRI. -/
structure BState where
  baseURL : String
  store : List (Key × Stored)
  cache : List (String × Item)

/-- badger Txn.Get: the record at a key, if present. -/
def getK : List (Key × Stored) → Key → Option Stored
  | [], _ => none
  | kv :: rest, k => if kv.1 = k then some kv.2 else getK rest k

/-- badger Txn.Set: write a record at a key, replacing in place when the key
exists and appending otherwise. -/
def putK : List (Key × Stored) → Key → Stored → List (Key × Stored)
  | [], k, v => [(k, v)]
  | kv :: rest, k, v => if kv.1 = k then (k, v) :: rest else kv :: putK rest k v

/-- badger Txn.Delete: remove the record at a key. -/
def delK (s : List (Key × Stored)) (k : Key) : List (Key × Stored) :=
  s.filter (fun kv => kv.1 ≠ k)

/-- cache.Get of the fedbox read-through cache, keyed by IRI. -/
def cacheGet : List (String × Item) → String → Option Item
  | [], _ => none
  | kv :: rest, k => if kv.1 = k then some kv.2 else cacheGet rest k

/-- cache.Set of the fedbox read-through cache. -/
def cacheSet : List (String × Item) → String → Item → List (String × Item)
  | [], k, v => [(k, v)]
  | kv :: rest, k, v => if kv.1 = k then (k, v) :: rest else kv :: cacheSet rest k v

/-- cache.Remove of the fedbox read-through cache. -/
def cacheRemove (c : List (String × Item)) (k : String) : List (String × Item) :=
  c.filter (fun kv => kv.1 ≠ k)

/-- The decoded membership list stored at the object key of a collection path
(the jsonld.Unmarshal into pub.IRIs done by onCollection; a missing record or
one that does not decode leaves the list empty, as in the source where the
decode error of the shadowed err variable is dropped). -/
def membershipAt (st : BState) (col : String) : List String :=
  match getK st.store (objKey (itemPath col)) with
  | some (.iris l) => l
  | _ => []

/-- The error taxonomy visible in the storage source: NotFound conditions,
the Unauthorized condition built by errors.NewUnauthorized, the annotated
wrapping of the key-not-found error of the substrate, substrate write
failures, a nil interface dereference (a go runtime panic), exhausted fuel of
the embedding, and a generic annotated error. -/
inductive Err where
  | notFound
  | unauthorized
  | keyNotFoundAnn
  | writeFailed
  | panicked
  | fuelOut
  | generic
  | decodeErrAnn
deriving DecidableEq

/-- Modelled from the spec: the go-ap errors classification is not under src;
section 4.9 and section 7 of the spec give the taxonomy, under which both the
NotFound errors built by errors.NotFoundf and the annotated key-not-found
error returned when no metadata record exists classify as NotFound. -/
def isNotFoundErr (e : Err) : Bool := e == .notFound || e == .keyNotFoundAnn

/-- Modelled from the spec: the Unauthorized classification of the go-ap
errors package; exactly the errors built by errors.NewUnauthorized. -/
def isUnauthorizedErr (e : Err) : Bool := e == .unauthorized

/-- Modelled from the spec: the NotValid classification; section 7 lists the
decode failure of a stored payload under NotValid, so the annotated
unmarshal error is NotValid, and in particular not NotFound. -/
def isNotValidErr (e : Err) : Bool := e == .decodeErrAnn

/-- ap.Filters, restricted to the fields the storage layer reads: the IRI
clause, the type clause, and whether the filter carries an object or an actor
sub-filter (ap.FiltersOnActivityObject / ap.FiltersOnActivityActor).
Modelled from the spec: the fedbox activitypub filter package is not under
src; section 4.5 describes the clauses. -/
structure Filters where
  iri : String
  typ : List String
  onObj : Bool
  onAct : Bool

/-- The s.Filterable argument threaded through the load path: a bare IRI, a
filter record, or an item collection (loadFromIterator replaces an IRI
filter by the member list of a decoded collection). -/
inductive Filterable where
  | iri (i : String)
  | filters (f : Filters)
  | items (l : List Item)

/-- Filterable.GetLink. -/
def fLink : Filterable → String
  | .iri i => i
  | .filters f => f.iri
  | .items _ => ""

/-- ap.FiltersFromIRI: the filter a bare load builds from an IRI.  Modelled
from the spec: the filter carries the IRI and no other clause. -/
def filtersFromIRI (i : String) : Filterable := .filters ⟨i, [], false, false⟩

/-- ap.FiltersNew followed by setting the IRI and type clauses, as the delete
path does. -/
def filtersForDelete (it : Item) : Filterable :=
  .filters ⟨it.getLinkStr, if it.isObjectB then [it.getTypeStr] else [], false, false⟩

/-- ap.FiltersOnActivityObject: the filter constrains the object participant. -/
def filtersOnObj : Filterable → Bool
  | .filters f => f.onObj
  | _ => false

/-- ap.FiltersOnActivityActor: the filter constrains the actor participant. -/
def filtersOnAct : Filterable → Bool
  | .filters f => f.onAct
  | _ => false

/-- ap.FilterIt.  Modelled from the spec: an IRI filter keeps the item when
the links are equal, an item collection filter keeps the item when some
member link equals its link, and a filter record checks its IRI clause and
its type clause; a kept item is returned, a rejected one yields nothing. -/
def filterIt (it : Item) (f : Filterable) : Option Item :=
  match f with
  | .iri i => if iriEqB it.getLinkStr i then some it else none
  | .items l => if l.any (fun m => iriEqB m.getLinkStr it.getLinkStr) then some it else none
  | .filters ff =>
    if (ff.iri == "" || iriEqB it.getLinkStr ff.iri)
        && (ff.typ.isEmpty || ff.typ.contains it.getTypeStr)
      then some it else none

/-- isStorageCollectionKey (badger repository.go line 583): the base segment
of the path is one of the fedbox root collections. -/
def isStorageColKey (p : Key) : Bool :=
  fedboxCollections.any (fun c => keyBase p == c.data)

/-- handlers.ValidCollectionIRI: the base segment of the path is one of the
eight activitypub collections. -/
def validColIRIKey (p : Key) : Bool :=
  apCollections.any (fun c => keyBase p == c.data)

/-- The entry points of the mutually recursive badger load path:
loadFromPath, loadOneFromPath, the loadFromIterator callback applied to one
stored value, loadItem at a path, and loadItemsElements.  The embedding runs
them as one fuel indexed function. -/
inductive LoadCall where
  | fromPath (f : Filterable)
  | one (f : Filterable)
  | iter (f : Filterable) (col : List Item) (v : Stored)
  | itemAt (p : Key) (f : Filterable)
  | elems (f : Filterable) (irs : List Item)

/-- The result of a load entry point: a single optional item (loadOneFromPath,
loadItem) or an item collection (loadFromPath, loadFromIterator,
loadItemsElements). -/
inductive LRes where
  | one (it : Option Item)
  | many (l : List Item)

/-- The iteration loop of loadFromPath (badger repository.go lines 613 to
629): walk the keys scanned under the prefix; skip keys that are too deep for
the permitted depth; for an object key, serve the cached item for the queried
link when present, and otherwise run the loadFromIterator callback on the
stored value, continuing with the old accumulator when the callback errors. -/
def iterKeys (base : Key) (depth : Nat) (flink : String)
    (handler : BState → List Item → Stored → (Except Err (List Item)) × BState) :
    List (Key × Stored) → List Item → BState → List Item × BState
  | [], col, st => (col, st)
  | kv :: rest, col, st =>
    if iterTooDeep base kv.1 depth then iterKeys base depth flink handler rest col st
    else if isObjectKeyB kv.1 then
      match cacheGet st.cache flink with
      | some c => iterKeys base depth flink handler rest (col ++ [c]) st
      | none =>
        match handler st col kv.2 with
        | (.ok col2, st2) => iterKeys base depth flink handler rest col2 st2
        | (.error _, st2) => iterKeys base depth flink handler rest col st2
    else iterKeys base depth flink handler rest col st

/-- The iteration of loadItemsElements (badger repository.go lines 663 to
676): load each referenced element through the handler, skipping errors and
absent items, and collect the rest in order. -/
def elemsLoop (handler : BState → String → (Except Err (Option Item)) × BState) :
    List Item → BState → List Item × BState
  | [], st => ([], st)
  | ir :: rest, st =>
    match handler st ir.getLinkStr with
    | (.ok (some x), st2) =>
      let r := elemsLoop handler rest st2
      (x :: r.1, r.2)
    | (.ok none, st2) => elemsLoop handler rest st2
    | (.error _, st2) => elemsLoop handler rest st2

/-- The badger load path (repository.go lines 529 to 735), fuel indexed.

fromPath is loadFromPath: resolve the filter link to a path, classify its
depth (depth one for a fedbox root collection, depth two for a recognized
collection endpoint), scan the keyspace for the prefix, fail NotFound when no
key carries the prefix, and iterate with iterKeys.

one is loadOneFromPath: loadFromPath, NotFound on an empty collection,
otherwise the first element.

iter is the loadFromIterator callback on one decoded value: a bare link is
re-resolved through loadItemsElements, replacing the accumulator; a
collection dereferences its members (an IRI filter is replaced by the member
list); otherwise, for an activity of the creation type the object reference
is expanded through loadOneFromPath (a nil object field is a nil interface
dereference in the source, modelled as the panicked error), the item is
cached, filtered, and appended.

itemAt is loadItem at a path: read and decode the object key, return a
collection as is for the caller to dereference, resolve a bare IRI redirect
(a failed resolution leaves a nil item whose type tag the source then reads,
a nil dereference modelled as the panicked error), expand the object and
actor participants of an activity when the type is the creation type or the
filter constrains them, and apply the filter.

elems is loadItemsElements over a list of references. -/
def loadGo : Nat → BState → LoadCall → (Except Err LRes) × BState
  | 0, st, _ => (.error .fuelOut, st)
  | Nat.succ n, st, c =>
    match c with
    | .fromPath f =>
      let p := itemPath (fLink f)
      let d1 : Nat := if isStorageColKey p then 1 else 0
      let depth : Nat := if validColIRIKey p then 2 else d1
      let scanned := st.store.filter (fun kv => keyHasPre kv.1 p)
      if scanned.isEmpty then (.error .notFound, st)
      else
        let r := iterKeys p depth (fLink f)
          (fun s cl v =>
            match loadGo n s (.iter f cl v) with
            | (.ok (.many l), s2) => (.ok l, s2)
            | (.ok (.one _), s2) => (.ok cl, s2)
            | (.error e, s2) => (.error e, s2))
          scanned [] st
        (.ok (.many r.1), r.2)
    | .one f =>
      match loadGo n st (.fromPath f) with
      | (.ok (.many (x :: _)), st2) => (.ok (.one (some x)), st2)
      | (.ok (.many []), st2) => (.error .notFound, st2)
      | (.ok (.one r), st2) => (.ok (.one r), st2)
      | (.error e, st2) => (.error e, st2)
    | .iter f col v =>
      match decodeItem v with
      | none => (.error .notFound, st)
      | some it =>
        if !it.isObjectB && it.isLinkB then
          match loadGo n st (.elems f [Item.link it.getLinkStr]) with
          | (.ok (.many l), st2) => (.ok (.many l), st2)
          | (.ok (.one _), st2) => (.ok (.many col), st2)
          | (.error e, st2) => (.error e, st2)
        else if it.isCollectionB then
          let members := it.colItems
          let f2 := match f with
            | .iri _ => Filterable.items members
            | other => other
          match loadGo n st (.elems f2 members) with
          | (.ok (.many l), st2) => (.ok (.many l), st2)
          | (.ok (.one _), st2) => (.ok (.many col), st2)
          | (.error e, st2) => (.error e, st2)
        else
          let step : (Except Err (Item × BState)) :=
            if it.getTypeStr == "Create" then
              match it.objOf with
              | none => .error .panicked
              | some ob =>
                if ob.isObjectB then .ok (it, st)
                else
                  match loadGo n st (.one (.iri ob.getLinkStr)) with
                  | (.ok (.one r), s2) => .ok (it.setObjF r, s2)
                  | (.ok (.many _), s2) => .ok (it.setObjF none, s2)
                  | (.error _, s2) => .ok (it.setObjF none, s2)
            else .ok (it, st)
          match step with
          | .error e => (.error e, st)
          | .ok (it2, st2) =>
            let st3 : BState := ⟨st2.baseURL, st2.store, cacheSet st2.cache it2.getLinkStr it2⟩
            match filterIt it2 f with
            | some kept => (.ok (.many (col ++ [kept])), st3)
            | none => (.ok (.many col), st3)
    | .itemAt p f =>
      match getK st.store (objKey p) with
      | none => (.error .notFound, st)
      | some v =>
        match decodeItem v with
        | none => (.error .notFound, st)
        | some it0 =>
          if it0.isCollectionB then (.ok (.one (some it0)), st)
          else
            let redirected : (Except Err (Item × BState)) :=
              if it0.isLinkB then
                match loadGo n st (.one (.iri it0.getLinkStr)) with
                | (.ok (.one (some x)), s2) => .ok (x, s2)
                | (.ok _, _) => .error .panicked
                | (.error _, _) => .error .panicked
              else .ok (it0, st)
            match redirected with
            | .error e => (.error e, st)
            | .ok (it1, st1) =>
              let stepObj : Item × BState :=
                if activityTypes.contains it1.getTypeStr
                    && (it1.getTypeStr == "Create" || filtersOnObj f) then
                  match it1.objOf with
                  | some ob =>
                    if ob.isObjectB then (it1, st1)
                    else
                      match loadGo n st1 (.one (.iri ob.getLinkStr)) with
                      | (.ok (.one r), s2) => (it1.setObjF r, s2)
                      | (.ok (.many _), s2) => (it1.setObjF none, s2)
                      | (.error _, s2) => (it1.setObjF none, s2)
                  | none => (it1, st1)
                else (it1, st1)
              let it2 := stepObj.1
              let stepAct : Item × BState :=
                if activityTypes.contains it2.getTypeStr && filtersOnAct f then
                  match it2.actOf with
                  | some ac =>
                    if ac.isObjectB then (it2, stepObj.2)
                    else
                      match loadGo n stepObj.2 (.one (.iri ac.getLinkStr)) with
                      | (.ok (.one r), s2) => (it2.setActF r, s2)
                      | (.ok (.many _), s2) => (it2.setActF none, s2)
                      | (.error _, s2) => (it2.setActF none, s2)
                  | none => (it2, stepObj.2)
                else (it2, stepObj.2)
              (.ok (.one (filterIt stepAct.1 f)), stepAct.2)
    | .elems f irs =>
      let r := elemsLoop
        (fun s lk =>
          match loadGo n s (.itemAt (itemPath lk) f) with
          | (.ok (.one r), s2) => (.ok r, s2)
          | (.ok (.many _), s2) => (.ok none, s2)
          | (.error e, s2) => (.error e, s2))
        irs st
      (.ok (.many r.1), r.2)

/-- repo.Load (badger repository.go lines 100 to 113): build the filter from
the IRI and run loadFromPath, returning the resulting item collection. -/
def loadB (fuel : Nat) (st : BState) (iri : String) : (Except Err (List Item)) × BState :=
  match loadGo fuel st (.fromPath (filtersFromIRI iri)) with
  | (.ok (.many l), st2) => (.ok l, st2)
  | (.ok (.one _), st2) => (.error .generic, st2)
  | (.error e, st2) => (.error e, st2)

/-- repo.LoadOne / loadOneFromPath on a filterable. -/
def loadOneB (fuel : Nat) (st : BState) (f : Filterable) : (Except Err Item) × BState :=
  match loadGo fuel st (.one f) with
  | (.ok (.one (some x)), st2) => (.ok x, st2)
  | (.ok _, st2) => (.error .notFound, st2)
  | (.error e, st2) => (.error e, st2)

/-- createCollectionInPath (badger repository.go lines 508 to 518): nothing
for a nil item; otherwise write the empty collection placeholder at the
object key of the collection path and return the bare link of the item. -/
def createColInPath (store : List (Key × Stored)) :
    Option Item → Option Item × List (Key × Stored)
  | none => (none, store)
  | some x => (some (.link x.getLinkStr), putK store (objKey (itemPath x.getLinkStr)) (.iris []))

/-- One field step of createCollections: when the field is set, create its
collection placeholder and rewrite the field to the bare link. -/
def createColStep (acc : Item × List (Key × Stored)) (f : SubField) :
    Item × List (Key × Stored) :=
  match acc.1.getSub f with
  | none => acc
  | some x =>
    let r := createColInPath acc.2 (some x)
    (acc.1.setSub f r.1, r.2)

/-- createCollections (badger repository.go lines 416 to 452): nothing for a
nil or non object item; for an actor typed object, create the five actor
collections; then, for every object, create the three object collections.
Each created collection is written as the empty placeholder at the path of
the field link, and the field is rewritten to that link. -/
def createCollectionsB (store : List (Key × Stored)) (it : Item) :
    Item × List (Key × Stored) :=
  if !it.isObjectB then (it, store)
  else
    let a :=
      if actorTypes.contains it.getTypeStr then actorSubs.foldl createColStep (it, store)
      else (it, store)
    objectSubs.foldl createColStep a

/-- save (badger repository.go lines 481 to 504): inside one update
transaction, create the owned collections of the item and write its encoding
at the object key of its path; the cache entry for the link of the item is
set after the transaction, whether it succeeded or failed, and the
transaction error is returned.  The fail flag injects a substrate write
failure, which rolls the transaction back. -/
def saveB (fail : Bool) (st : BState) (it : Item) :
    Item × (Except Err Unit) × BState :=
  let p := itemPath it.getLinkStr
  let r := createCollectionsB st.store it
  let it2 := r.1
  let store2 := putK r.2 (objKey p) (.item it2)
  let storeF := if fail then st.store else store2
  let err : Except Err Unit := if fail then .error .writeFailed else .ok ()
  (it2, err, ⟨st.baseURL, storeF, cacheSet st.cache it2.getLinkStr it2⟩)

/-- allStorageCollections.Split on a collection IRI: the last slash separated
segment when it is a recognized collection name, paired with the IRI shorn
of it; otherwise the IRI itself and the empty name. -/
def splitColIRI (col : String) : String × String :=
  let segs := splitSeg col.data
  match segs.getLast? with
  | some lastSeg =>
    if (apCollections ++ fedboxCollections).any (fun c => lastSeg == c.data) then
      (String.mk (joinSeg (segs.dropLast)), String.mk lastSeg)
    else (col, "")
  | none => (col, "")

/-- handlers.ValidCollection: the name is one of the eight activitypub
collections. -/
def validCollection (t : String) : Bool := apCollections.contains t

/-- The SubField of a collection name, when it names one. -/
def subFieldOf (t : String) : Option SubField :=
  if t == "inbox" then some .inbox
  else if t == "outbox" then some .outbox
  else if t == "followers" then some .followers
  else if t == "following" then some .following
  else if t == "liked" then some .liked
  else if t == "replies" then some .replies
  else if t == "likes" then some .likes
  else if t == "shares" then some .shares
  else none

/-- handlers.CollectionType.AddTo: attach the canonical collection IRI to the
matching field of the item when that field is empty; the Bool reports whether
the field was attached (false when it was already present or the name names
no field of the item). -/
def ctAddTo (t : String) (it : Item) : Item × Bool :=
  match subFieldOf t with
  | none => (it, false)
  | some f =>
    if !it.isObjectB then (it, false)
    else match it.getSub f with
      | some _ => (it, false)
      | none => (it.setSub f (some (.link (it.getLinkStr ++ "/" ++ t))), true)

/-- addCollectionOnObject (badger repository.go lines 220 to 232): split the
collection IRI; when the suffix is a valid collection name, load the owner
(best effort), attach the collection to it when missing and re-save it;
failures are ignored. -/
def addColOnObject (fuel : Nat) (st : BState) (col : String) : BState :=
  let s := splitColIRI col
  if validCollection s.2 then
    match loadOneB fuel st (.iri s.1) with
    | (.ok i, st2) =>
      let r := ctAddTo s.2 i
      if r.2 then (saveB false st2 r.1).2.2 else st2
    | (.error _, st2) => st2
  else st

/-- onCollection (badger repository.go lines 156 to 205): validate the
element, the collection IRI, and locality; read and decode the membership
list at the object key of the collection path (a missing or undecodable
record leaves it empty, the source dropping the shadowed decode error); apply
the update function and write the result back. -/
def onCollectionB (st : BState) (col : String) (it : Item)
    (fn : List String → List String) : (Except Err Unit) × BState :=
  if col == "" then (.error .generic, st)
  else if it.getLinkStr == "" then (.error .generic, st)
  else if !isLocalIRI st.baseURL col then (.error .generic, st)
  else
    let iris := membershipAt st col
    let iris2 := fn iris
    (.ok (), ⟨st.baseURL, putK st.store (objKey (itemPath col)) (.iris iris2), st.cache⟩)

/-- repo.AddTo (badger repository.go lines 235 to 243): run
addCollectionOnObject, then append the link of the item to the membership
list unless it is already present. -/
def addToB (fuel : Nat) (st : BState) (col : String) (it : Item) :
    (Except Err Unit) × BState :=
  let st1 := addColOnObject fuel st col
  onCollectionB st1 col it
    (fun iris => if containsIRI iris it.getLinkStr then iris else iris ++ [it.getLinkStr])

/-- repo.RemoveFrom (badger repository.go lines 208 to 218): remove the first
entry whose link equals the link of the item, keeping the rest. -/
def removeFromB (st : BState) (col : String) (it : Item) :
    (Except Err Unit) × BState :=
  onCollectionB st col it (fun iris => removeFirstIRI it.getLinkStr iris)

/-- deleteCollectionFromPath (badger repository.go lines 520 to 527): remove
the cache entry for the collection link and delete its object key. -/
def deleteColFromPath (st : BState) (colIRI : String) : BState :=
  ⟨st.baseURL, delK st.store (objKey (itemPath colIRI)), cacheRemove st.cache colIRI⟩

/-- The body of deleteCollections (badger repository.go lines 455 to 479) on
a non nil item: for an actor typed item the five actor collections at their
canonical IRIs are deleted; for an object typed item the three object
collections are; otherwise nothing happens.  No branch produces an error. -/
def deleteCollectionsCore (st : BState) (it : Item) : BState :=
  if actorTypes.contains it.getTypeStr then
    ["inbox", "outbox", "followers", "following", "liked"].foldl
      (fun s name => deleteColFromPath s (it.getLinkStr ++ "/" ++ name)) st
  else if objectTypes.contains it.getTypeStr then
    ["replies", "likes", "shares"].foldl
      (fun s name => deleteColFromPath s (it.getLinkStr ++ "/" ++ name)) st
  else st

/-- deleteCollections applied to the best effort prior item of the delete
path.  The source calls GetType on the item without a nil check; when the
prior load found nothing the item is a nil interface and the call is a nil
dereference, modelled as the panicked error. -/
def deleteCollectionsB (st : BState) : Option Item → (Except Err BState)
  | none => .error .panicked
  | some it => .ok (deleteCollectionsCore st it)

/-- The delete loop over the members of a collection argument (badger
repository.go lines 383 to 393), one fuel step per member. -/
def delLoop (handler : BState → Item → (Except Err Item) × BState) :
    List Item → BState → (Except Err Unit) × BState
  | [], st => (.ok (), st)
  | x :: rest, st =>
    match handler st x with
    | (.ok _, st2) => delLoop handler rest st2
    | (.error e, st2) => (.error e, st2)

/-- delete (badger repository.go lines 382 to 413): a collection argument is
deleted member by member; otherwise build the delete filter (the IRI of the
argument, and its type when it is an object), load the prior item best
effort, cascade delete its owned collections (a nil prior item makes the
cascade dereference a nil interface, the panicked error), and save a
Tombstone at the same IRI carrying the public audience, the deletion time and
the former type read from the prior item. -/
def deleteB : Nat → BState → Nat → Item → (Except Err Item) × BState
  | 0, st, _, _ => (.error .fuelOut, st)
  | Nat.succ n, st, now, it =>
    if it.isCollectionB then
      match delLoop (fun s x => deleteB n s now x) it.colItems st with
      | (.ok _, st2) => (.ok it, st2)
      | (.error e, st2) => (.error e, st2)
    else
      let f := filtersForDelete it
      let r := loadOneB n st f
      let old : Option Item := match r.1 with
        | .ok x => some x
        | .error _ => none
      match deleteCollectionsB r.2 old with
      | .error e => (.error e, r.2)
      | .ok st2 =>
        let former : String := match old with
          | some o => o.getTypeStr
          | none => ""
        let t : Item := .obj it.getLinkStr "Tombstone" [publicNS]
          none none none none none none none none none none
          (some former) (some now) []
        let sv := saveB false st2 t
        match sv.2.1 with
        | .ok _ => (.ok sv.1, sv.2.2)
        | .error e => (.error e, sv.2.2)

/-- repo.PasswordSet (badger repository.go lines 272 to 300): hash the secret
with bcrypt and write the metadata blob at the metadata key of the item path. -/
def passwordSetB (st : BState) (it : Item) (pw : String) (salt : Nat) : BState :=
  let m : Metadata := ⟨bcryptGenerate salt pw⟩
  ⟨st.baseURL, putK st.store (metaKey (itemPath it.getLinkStr)) (.meta m), st.cache⟩

/-- repo.PasswordCheck (badger repository.go lines 303 to 330): read the
metadata record at the metadata key of the item path; a missing record yields
the annotated key-not-found error of the substrate; a present record is
compared with bcrypt and a mismatch yields the Unauthorized error.  A record
of another shape unmarshals to a metadata value with an empty hash, which
then fails the comparison. -/
def passwordCheckB (st : BState) (it : Item) (pw : String) : Except Err Unit :=
  match getK st.store (metaKey (itemPath it.getLinkStr)) with
  | none => .error .keyNotFoundAnn
  | some (.meta m) => if bcryptCompare m.pw pw then .ok () else .error .unauthorized
  | some _ => .error .unauthorized

/-- One field step of the boltdb createCollectionsInBucket: when the field is
set, create the bucket named by the base segment of the given collection IRI
(createCollectionInBucket, part 001 lines 429 to 439) and rewrite the field
to the bare link of that IRI. -/
def boltColStep (acc : Item × List String) (f : SubField) (colIRI : String) :
    Item × List String :=
  match acc.1.getSub f with
  | none => acc
  | some _ =>
    (acc.1.setSub f (some (.link colIRI)), acc.2 ++ [String.mk (keyBase colIRI.data)])

/-- createCollectionsInBucket of the boltdb backend (part 001 lines 449 to
486): for an actor typed object create the actor collections at their
canonical handler IRIs; the source passes the liked IRI for the Following
field (line 466), which this embedding reproduces; then create the object
collections.  Returns the rewritten item and the bucket names created. -/
def boltCreateCollections (it : Item) : Item × List String :=
  if !it.isObjectB then (it, [])
  else
    let lnk := it.getLinkStr
    let a :=
      if actorTypes.contains it.getTypeStr then
        let s1 := boltColStep (it, []) .inbox (lnk ++ "/inbox")
        let s2 := boltColStep s1 .outbox (lnk ++ "/outbox")
        let s3 := boltColStep s2 .followers (lnk ++ "/followers")
        let s4 := boltColStep s3 .following (lnk ++ "/liked")
        boltColStep s4 .liked (lnk ++ "/liked")
      else (it, [])
    let s5 := boltColStep a .replies (lnk ++ "/replies")
    let s6 := boltColStep s5 .likes (lnk ++ "/likes")
    boltColStep s6 .shares (lnk ++ "/shares")

/-- deleteCollectionFromBucket of the boltdb backend (part 001 lines 441 to
447): DeleteBucket is called with the full link of the collection item as
the bucket name (p := []byte(it.GetLink())), although the buckets were
created under their base segment names.  The argument is the list of sub
bucket names of the owner bucket; only a name equal to the full link is
removed. -/
def boltDeleteColFromBucket (buckets : List String) (it : Item) : List String :=
  buckets.filter (fun name => name ≠ it.getLinkStr)

/-- deleteCollectionsFromBucket (part 001 lines 514 to 536): for an actor
typed item try to delete the five actor collections, and for an object typed
item the three object collections, passing the canonical handler IRIs to
deleteCollectionFromBucket. -/
def boltDeleteCollectionsFromBucket (buckets : List String) (it : Item) :
    List String :=
  if actorTypes.contains it.getTypeStr then
    ["inbox", "outbox", "followers", "following", "liked"].foldl
      (fun bs name => boltDeleteColFromBucket bs (.link (it.getLinkStr ++ "/" ++ name)))
      buckets
  else if objectTypes.contains it.getTypeStr then
    ["replies", "likes", "shares"].foldl
      (fun bs name => boltDeleteColFromBucket bs (.link (it.getLinkStr ++ "/" ++ name)))
      buckets
  else buckets

/-- Does a bucket with the given path exist (the successful descent of
descendInBucket with create=false). -/
def boltHasBucket : List String → String → Bool
  | [], _ => false
  | b :: rest, p => if b = p then true else boltHasBucket rest p

/-- The metadata record stored under the metadata key of a bucket path. -/
def boltLookupMeta : List (String × Metadata) → String → Option Metadata
  | [], _ => none
  | kv :: rest, k => if kv.1 = k then some kv.2 else boltLookupMeta rest k

/-- Write the metadata record of a bucket path (b.Put of the metadata key). -/
def boltPutMeta : List (String × Metadata) → String → Metadata → List (String × Metadata)
  | [], k, m => [(k, m)]
  | kv :: rest, k, m => if kv.1 = k then (k, m) :: rest else kv :: boltPutMeta rest k m

/-- The boltdb state seen by the credential operations: which bucket paths
exist (itemBucketPath of the stored items) and the metadata record under
each.  itemBucketPath joins the URL host and path of the IRI, which for a
well formed IRI is the same byte path as the badger itemPath. -/
structure BoltMeta where
  buckets : List String
  meta : List (String × Metadata)

/-- PasswordSet of the boltdb backend (part 001 lines 757 to 805): descend
into the bucket of the item path creating it as needed, hash the secret with
bcrypt and write the metadata record under the metadata key. -/
def boltPasswordSet (st : BoltMeta) (it : Item) (pw : String) (salt : Nat) :
    BoltMeta :=
  let p := String.mk (itemPath it.getLinkStr)
  ⟨if boltHasBucket st.buckets p then st.buckets else st.buckets ++ [p],
   boltPutMeta st.meta p ⟨bcryptGenerate salt pw⟩⟩

/-- PasswordCheck of the boltdb backend (part 001 lines 808 to 838): descend
into the bucket of the item path; a failed descent discards the not-found
error of descendInBucket and returns a freshly built generic error
(errors.Newf, line 825); with the bucket present the metadata key is read
and unmarshalled, a missing key giving nil bytes whose unmarshal fails with
the annotated decode error of line 830; a present record is compared with
bcrypt and a mismatch yields the Unauthorized error. -/
def boltPasswordCheck (st : BoltMeta) (it : Item) (pw : String) :
    Except Err Unit :=
  let p := String.mk (itemPath it.getLinkStr)
  if !boltHasBucket st.buckets p then .error .generic
  else
    match boltLookupMeta st.meta p with
    | none => .error .decodeErrAnn
    | some m => if bcryptCompare m.pw pw then .ok () else .error .unauthorized

/-- Is sub a contiguous substring of s (strings.Contains). -/
def hasSubstr (s sub : List Char) : Bool :=
  keyHasPre s sub ||
    match s with
    | [] => false
    | _ :: rest => hasSubstr rest sub

/-- A row of one of the three sqlite item tables: the IRI column, the type
column and the raw encoded item. -/
structure SRow where
  iri : String
  typ : String
  raw : Item

/-- The sqlite repository state: the base URL, the three item tables, the
collections join table (rows of collection IRI and member object IRI), and
the read-through cache.  Modelled from the spec: the bootstrap schema of the
relational backend is not under src; section 4.2 describes it as separate
tables per coarse type plus a join table for collection membership, with no
uniqueness constraint on the join table. -/
structure SState where
  baseURL : String
  objects : List SRow
  activities : List SRow
  actors : List SRow
  collections : List (String × String)
  cache : List (String × Item)

/-- INSERT OR REPLACE into an item table, keyed by the IRI column. -/
def upsertRow : List SRow → SRow → List SRow
  | [], r => [r]
  | x :: rest, r => if x.iri == r.iri then r :: rest else x :: upsertRow rest r

/-- One field step of the sqlite flattenCollections: rewrite a set field to
its bare link (pub.FlattenToIRI). -/
def flattenStep (acc : Item) (f : SubField) : Item :=
  match acc.getSub f with
  | none => acc
  | some x => acc.setSub f (some (.link x.getLinkStr))

/-- flattenCollections (sqlite repository.go lines 764 to 784): flatten the
five actor fields of an actor typed object and the three object fields of
every object to bare links. -/
def flattenCollectionsS (it : Item) : Item :=
  if !it.isObjectB then it
  else
    let a :=
      if actorTypes.contains it.getTypeStr then actorSubs.foldl flattenStep it
      else it
    objectSubs.foldl flattenStep a

/-- The last slash separated segment of an IRI string. -/
def lastSeg (s : String) : String :=
  match (splitSeg s.data).getLast? with
  | some seg => String.mk seg
  | none => ""

/-- The IRI shorn of its last slash separated segment (path.Split directory,
without the trailing slash). -/
def dropLastSeg (s : String) : String :=
  String.mk (joinSeg (splitSeg s.data).dropLast)

/-- repo.AddTo of the sqlite backend (repository.go lines 176 to 189): an
unconditional INSERT of the membership row into the collections join table;
no presence check is made. -/
def sqliteAddTo (st : SState) (col : String) (it : Item) :
    (Except Err Unit) × SState :=
  (.ok (), { st with collections := st.collections ++ [(col, it.getLinkStr)] })

/-- repo.RemoveFrom of the sqlite backend (repository.go lines 160 to 173): a
DELETE of every row of the collections join table whose collection IRI and
member IRI columns equal the arguments. -/
def sqliteRemoveFrom (st : SState) (col : String) (it : Item) :
    (Except Err Unit) × SState :=
  (.ok (),
   { st with collections :=
      st.collections.filter (fun r => !(r.1 == col && r.2 == it.getLinkStr)) })

/-- save of the sqlite backend (repository.go lines 644 to 761): flatten the
owned collections to links, pick the table from the type (activities for
activity types, actors for actor types, and for a Tombstone the table whose
name occurs in the IRI, objects otherwise), INSERT OR REPLACE the row, then
add the item to the collections table when its IRI sits under a recognized
collection, and set the cache entry.  A failed INSERT returns the error
before the cache entry is touched.  The fail flag injects the substrate
write failure. -/
def sqliteSave (fail : Bool) (st : SState) (it : Item) :
    Item × (Except Err Unit) × SState :=
  let it2 := flattenCollectionsS it
  let iri := it2.getLinkStr
  if fail then (it2, .error .writeFailed, st)
  else
    let row : SRow := ⟨iri, it2.getTypeStr, it2⟩
    let st2 :=
      if activityTypes.contains it2.getTypeStr then
        { st with activities := upsertRow st.activities row }
      else if actorTypes.contains it2.getTypeStr then
        { st with actors := upsertRow st.actors row }
      else if it2.getTypeStr == "Tombstone" then
        if hasSubstr iri.data "actors".data then
          { st with actors := upsertRow st.actors row }
        else if hasSubstr iri.data "activities".data then
          { st with activities := upsertRow st.activities row }
        else { st with objects := upsertRow st.objects row }
      else { st with objects := upsertRow st.objects row }
    let parent := dropLastSeg iri
    let st3 :=
      if lastSeg iri != "" && validCollection (lastSeg parent) then
        let sp := splitColIRI parent
        if sp.2 == "" then (sqliteAddTo st2 parent it2).2 else st2
      else st2
    (it2, .ok (), { st3 with cache := cacheSet st3.cache iri it2 })

/-- loadFromThreeTables (sqlite repository.go lines 375 to 387) restricted to
an exact IRI clause: the rows of the objects table, of the actors table, and
of the actors table again (the source queries loadFromActors for the
activities as well, line 383), whose IRI column equals the filter IRI. -/
def sqliteThreeTables (st : SState) (iri : String) : List Item :=
  ((st.objects.filter (fun r => r.iri == iri)).map SRow.raw) ++
  ((st.actors.filter (fun r => r.iri == iri)).map SRow.raw) ++
  ((st.actors.filter (fun r => r.iri == iri)).map SRow.raw)

/-- repo.Delete of the sqlite backend (repository.go lines 192 to 233): a
collection argument is deleted member by member; otherwise a Tombstone is
built at the IRI of the argument with the public audience and the deletion
time, the former type taken from the argument itself when it is a full
object and otherwise from the three table lookup, and saved.  The call to
deleteCollections is commented out in the source, so no owned collection is
cascade deleted. -/
def sqliteDelete : Nat → SState → Nat → Item → (Except Err Item) × SState
  | 0, st, _, _ => (.error .fuelOut, st)
  | Nat.succ n, st, now, it =>
    if it.isCollectionB then
      match it.colItems with
      | [] => (.ok it, st)
      | members =>
        let r := members.foldl
          (fun (acc : (Except Err Unit) × SState) x =>
            match acc.1 with
            | .error e => (.error e, acc.2)
            | .ok _ =>
              match sqliteDelete n acc.2 now x with
              | (.ok _, s2) => (.ok (), s2)
              | (.error e, s2) => (.error e, s2))
          (.ok (), st)
        match r.1 with
        | .ok _ => (.ok it, r.2)
        | .error e => (.error e, r.2)
    else
      let former : Option String :=
        if it.isObjectB then some it.getTypeStr
        else some (Item.items (sqliteThreeTables st it.getLinkStr)).getTypeStr
      let t : Item := .obj it.getLinkStr "Tombstone" [publicNS]
        none none none none none none none none none none
        former (some now) []
      let sv := sqliteSave false st t
      match sv.2.1 with
      | .ok _ => (.ok sv.1, sv.2.2)
      | .error e => (.error e, sv.2.2)

/-! Concrete fixtures used by the claim theorems, their witnesses and
counterexamples. -/

/-- An empty badger repository over the base URL of the instance. -/
def emptyB : BState := ⟨"https://a", [], []⟩

/-- An empty sqlite repository over the base URL of the instance. -/
def emptyS : SState := ⟨"https://a", [], [], [], [], []⟩

/-- A plain note object with no stored record anywhere. -/
def aNote : Item :=
  .obj "https://a/objects/1" "Note" [] none none none none none none none none
    none none none none []

/-- A stored note object. -/
def c7O : Item :=
  .obj "https://a/objects/o1" "Note" [] none none none none none none none none
    none none none none []

/-- A creation activity whose object is the bare IRI of the note. -/
def c7A1 : Item :=
  .obj "https://a/activities/1" "Create" [] none none none none none none none
    none (some (.link "https://a/objects/o1")) none none none []

/-- A creation activity whose object is the bare IRI of the first creation
activity. -/
def c7A2 : Item :=
  .obj "https://a/activities/2" "Create" [] none none none none none none none
    none (some (.link "https://a/activities/1")) none none none []

/-- A store holding the two chained creation activities and the note, with an
empty cache. -/
def c7St : BState := ⟨"https://a",
  [(objKey (itemPath "https://a/activities/2"), .item c7A2),
   (objKey (itemPath "https://a/activities/1"), .item c7A1),
   (objKey (itemPath "https://a/objects/o1"), .item c7O)], []⟩

/-- The load of the outer creation activity. -/
def c7Res : (Except Err (List Item)) × BState := loadB 12 c7St "https://a/activities/2"

/-- The object field of the object of the single loaded item: the reference
nested one level below the expanded object. -/
def c7probe (r : (Except Err (List Item))) : Option Item :=
  match r with
  | .ok [x] =>
    match x.objOf with
    | some y => y.objOf
    | none => none
  | _ => none

/-- The inner creation activity as the load returns it: its object expanded to
the full note. -/
def c7A1Full : Item :=
  .obj "https://a/activities/1" "Create" [] none none none none none none none
    none (some c7O) none none none []

/-- The outer creation activity as the load returns it: its object expanded to
the inner activity, itself expanded. -/
def c7A2Full : Item :=
  .obj "https://a/activities/2" "Create" [] none none none none none none none
    none (some c7A1Full) none none none []

/-- An actor with a declared followers collection. -/
def c4Actor : Item :=
  .obj "https://a/actors/1" "Person" [] none none
    (some (.link "https://a/actors/1/followers")) none none none none none
    none none none none []

/-- The badger state after saving the actor. -/
def c4St1 : BState := (saveB false emptyB c4Actor).2.2

/-- The badger state after adding a follower to the followers collection. -/
def c4St2 : BState :=
  (addToB 2 c4St1 "https://a/actors/1/followers" (.link "https://a/actors/2")).2

/-- The delete of the actor. -/
def c4Del : (Except Err Item) × BState := deleteB 3 c4St2 9 c4Actor

/-- The tombstone the badger delete writes for the actor. -/
def c4Tomb : Item :=
  .obj "https://a/actors/1" "Tombstone" [publicNS] none none none none none
    none none none none none (some "Person") (some 9) []

/-- A sqlite state holding the actor row and a nonempty followers membership. -/
def c4Sql : SState := ⟨"https://a", [], [],
  [⟨"https://a/actors/1", "Person", c4Actor⟩],
  [("https://a/actors/1/followers", "https://a/actors/2")], []⟩

/-- The sqlite delete of the actor. -/
def c4SqlDel : (Except Err Item) × SState := sqliteDelete 2 c4Sql 9 c4Actor

/-- The member added twice in the idempotence scenarios. -/
def c2x : Item := .link "https://a/objects/x"

/-- The followers collection of the first actor. -/
def c2col : String := "https://a/actors/1/followers"

/-- The owner actor of the followers collection, its followers field set. -/
def c2owner : Item :=
  .obj "https://a/actors/1" "Person" [] none none
    (some (.link "https://a/actors/1/followers")) none none none none none
    none none none none []

/-- A badger state holding the owner record and its cache entry. -/
def c2St : BState := ⟨"https://a",
  [(objKey (itemPath "https://a/actors/1"), .item c2owner)],
  [("https://a/actors/1", c2owner)]⟩

/-- Two successive sqlite AddTo calls for the same member. -/
def c2SqlTwice : SState :=
  (sqliteAddTo (sqliteAddTo emptyS c2col c2x).2 c2col c2x).2

/-- A sqlite state whose followers membership holds the same member twice. -/
def c5Sql : SState := ⟨"https://a", [], [], [],
  [(c2col, "https://a/objects/x"), (c2col, "https://a/objects/x")], []⟩

/-- An empty boltdb credential state: no bucket exists at all. -/
def c9Bolt0 : BoltMeta := ⟨[], []⟩

/-- A boltdb credential state where the bucket of the note exists but holds
no metadata record under its metadata key. -/
def c9Bolt1 : BoltMeta := ⟨[String.mk (itemPath aNote.getLinkStr)], []⟩

/-- An actor carrying all five declared actor collections, for the boltdb
first-save scenario. -/
def c6Actor : Item :=
  .obj "https://a/actors/jdoe" "Person" []
    (some (.link "https://a/actors/jdoe/inbox"))
    (some (.link "https://a/actors/jdoe/outbox"))
    (some (.link "https://a/actors/jdoe/followers"))
    (some (.link "https://a/actors/jdoe/following"))
    (some (.link "https://a/actors/jdoe/liked"))
    none none none none none none none []

/-! Lemmas about the key algebra and the store operations. -/

theorem keyHasPre_append (a b : Key) : keyHasPre (a ++ b) a = true := by
  induction a with
  | nil => cases b <;> rfl
  | cons x xs ih => simp [keyHasPre, ih]

theorem keyHasPre_refl (a : Key) : keyHasPre a a = true := by
  have h := keyHasPre_append a []
  simpa using h

theorem keyHasSuf_append (a b : Key) : keyHasSuf (a ++ b) b = true := by
  unfold keyHasSuf
  rw [List.reverse_append]
  exact keyHasPre_append _ _

theorem trimPre_append (a b : Key) : trimPre (a ++ b) a = b := by
  unfold trimPre
  rw [keyHasPre_append]
  simp [List.drop_left]

theorem objKey_eq (p : Key) : objKey p = (p ++ [sepChar]) ++ rawChars := by
  simp [objKey, sepChar, rawChars]

theorem isObjectKeyB_objKey (p : Key) : isObjectKeyB (objKey p) = true := by
  rw [objKey_eq]; exact keyHasSuf_append _ _

theorem iterTooDeep_objKey (p : Key) (d : Nat) : iterTooDeep p (objKey p) d = false := by
  unfold iterTooDeep
  rw [objKey_eq, trimPre_append]
  have h1 : trimSuf rawChars rawChars = [] := by decide
  rw [h1]
  simp [countSep]

theorem keyHasPre_objKey (p : Key) : keyHasPre (objKey p) p = true := by
  have h : objKey p = p ++ (sepChar :: rawChars) := rfl
  rw [h]; exact keyHasPre_append _ _

theorem mem_putK (s : List (Key × Stored)) (k : Key) (v : Stored) :
    (k, v) ∈ putK s k v := by
  induction s with
  | nil => simp [putK]
  | cons kv rest ih =>
    simp only [putK]
    by_cases h : kv.1 = k
    · simp [h]
    · simp [h]; right; exact ih

theorem mem_putK_ne (s : List (Key × Stored)) (k k' : Key) (v v' : Stored)
    (h : (k', v') ∈ s) (hne : k' ≠ k) : (k', v') ∈ putK s k v := by
  induction s with
  | nil => cases h
  | cons kv rest ih =>
    simp only [putK]
    by_cases he : kv.1 = k
    · rcases List.mem_cons.mp h with h1 | h1
      · exact absurd ((congrArg Prod.fst h1).trans he) hne
      · simp only [he, if_pos rfl]
        exact List.mem_cons_of_mem _ h1
    · rcases List.mem_cons.mp h with h1 | h1
      · simp only [he, if_neg he]
        exact h1 ▸ List.mem_cons_self _ _
      · simp only [he, if_neg he]
        exact List.mem_cons_of_mem _ (ih h1)

theorem getK_putK_same (s : List (Key × Stored)) (k : Key) (v : Stored) :
    getK (putK s k v) k = some v := by
  induction s with
  | nil => simp [putK, getK]
  | cons kv rest ih =>
    simp only [putK]
    by_cases h : kv.1 = k
    · simp [h, getK]
    · simp [h, getK, ih]

theorem putK_get_same (s : List (Key × Stored)) (k : Key) (v : Stored)
    (h : getK s k = some v) : putK s k v = s := by
  induction s with
  | nil => simp [getK] at h
  | cons kv rest ih =>
    cases kv with
    | mk k1 v1 =>
      by_cases he : k1 = k
      · subst he
        simp only [getK, if_pos rfl] at h
        cases h
        simp [putK]
      · simp only [getK, if_neg he] at h
        simp [putK, he, ih h]

theorem cacheGet_cacheSet_same (c : List (String × Item)) (k : String) (v : Item) :
    cacheGet (cacheSet c k v) k = some v := by
  induction c with
  | nil => simp [cacheSet, cacheGet]
  | cons kv rest ih =>
    simp only [cacheSet]
    by_cases h : kv.1 = k
    · simp [h, cacheGet]
    · simp [h, cacheGet, ih]

theorem boltLookupMeta_put_same (l : List (String × Metadata)) (k : String)
    (m : Metadata) : boltLookupMeta (boltPutMeta l k m) k = some m := by
  induction l with
  | nil => simp [boltPutMeta, boltLookupMeta]
  | cons kv rest ih =>
    simp only [boltPutMeta]
    by_cases h : kv.1 = k
    · simp [h, boltLookupMeta]
    · simp [h, boltLookupMeta, ih]

theorem boltHasBucket_append_self (l : List String) (p : String) :
    boltHasBucket (l ++ [p]) p = true := by
  induction l with
  | nil => simp [boltHasBucket]
  | cons b rest ih =>
    by_cases h : b = p <;> simp [boltHasBucket, h, ih]

theorem boltHasBucket_set (l : List String) (p : String) :
    boltHasBucket (if boltHasBucket l p then l else l ++ [p]) p = true := by
  by_cases h : boltHasBucket l p
  · simp [h]
  · simp [h, boltHasBucket_append_self]

theorem filter_not_empty {α : Type} (l : List α) (p : α → Bool) (x : α)
    (hm : x ∈ l) (hp : p x = true) : (l.filter p).isEmpty = false := by
  have hmem : x ∈ l.filter p := List.mem_filter.mpr ⟨hm, hp⟩
  cases hf : l.filter p with
  | nil => rw [hf] at hmem; cases hmem
  | cons y ys => rfl

/-- When the queried link is cached, every surviving object key of the scan
appends the cached item and the state is unchanged. -/
theorem iterKeys_cached (base : Key) (depth : Nat) (flink : String)
    (handler : BState → List Item → Stored → (Except Err (List Item)) × BState)
    (st : BState) (c : Item) (hc : cacheGet st.cache flink = some c) :
    ∀ (keys : List (Key × Stored)) (col : List Item),
      iterKeys base depth flink handler keys col st =
        (col ++ (keys.filter
            (fun kv => !iterTooDeep base kv.1 depth && isObjectKeyB kv.1)).map
          (fun _ => c), st) := by
  intro keys
  induction keys with
  | nil => intro col; simp [iterKeys]
  | cons kv rest ih =>
    intro col
    simp only [iterKeys]
    by_cases h1 : iterTooDeep base kv.1 depth
    · simp [h1, ih, List.filter_cons]
    · by_cases h2 : isObjectKeyB kv.1
      · simp [h1, h2, hc, ih, List.filter_cons]
      · simp [h1, h2, ih, List.filter_cons]

/-- loadFromPath under a cache hit for the queried link: the path exists as
soon as some key carries the object key of the resolved path, and the result
is the cached item, once per surviving object key; the state is unchanged. -/
theorem fromPath_cached (n : Nat) (st : BState) (f : Filterable) (c : Item)
    (v : Stored) (hc : cacheGet st.cache (fLink f) = some c)
    (hk : (objKey (itemPath (fLink f)), v) ∈ st.store) :
    ∃ l, loadGo (n + 1) st (.fromPath f) = (.ok (.many l), st) ∧
      l ≠ [] ∧ ∀ x ∈ l, x = c := by
  simp only [loadGo]
  have hp : keyHasPre (objKey (itemPath (fLink f))) (itemPath (fLink f)) = true :=
    keyHasPre_objKey _
  have hne : ((st.store.filter
      (fun kv => keyHasPre kv.1 (itemPath (fLink f)))).isEmpty) = false :=
    filter_not_empty _ _ _ hk hp
  rw [hne]
  simp only [Bool.false_eq_true, if_false]
  rw [iterKeys_cached _ _ _ _ _ _ hc]
  refine ⟨_, rfl, ?_, ?_⟩
  · apply List.ne_nil_of_mem
    apply List.mem_map_of_mem
    apply List.mem_filter.mpr
    refine ⟨List.mem_filter.mpr ⟨hk, hp⟩, ?_⟩
    rw [iterTooDeep_objKey, isObjectKeyB_objKey]
    rfl
  · intro x hx
    rcases List.mem_map.mp hx with ⟨a, _, h2⟩
    exact h2.symm

/-- loadOneFromPath under a cache hit: the cached item, the state unchanged. -/
theorem one_cached (n : Nat) (st : BState) (f : Filterable) (c : Item)
    (v : Stored) (hc : cacheGet st.cache (fLink f) = some c)
    (hk : (objKey (itemPath (fLink f)), v) ∈ st.store) :
    loadGo (n + 2) st (.one f) = (.ok (.one (some c)), st) := by
  obtain ⟨l, heq, hne, hall⟩ := fromPath_cached n st f c v hc hk
  cases l with
  | nil => exact absurd rfl hne
  | cons x xs =>
    have hx : x = c := hall x (List.mem_cons_self _ _)
    calc loadGo (n + 2) st (.one f)
        = (match loadGo (n + 1) st (.fromPath f) with
            | (Except.ok (LRes.many (x :: _)), st2) =>
                ((Except.ok (LRes.one (some x)) : Except Err LRes), st2)
            | (Except.ok (LRes.many []), st2) => (Except.error Err.notFound, st2)
            | (Except.ok (LRes.one r), st2) => (Except.ok (LRes.one r), st2)
            | (Except.error e, st2) => (Except.error e, st2)) := rfl
      _ = (.ok (.one (some c)), st) := by rw [heq, hx]

theorem loadOneB_cached (n : Nat) (st : BState) (f : Filterable) (c : Item)
    (v : Stored) (hc : cacheGet st.cache (fLink f) = some c)
    (hk : (objKey (itemPath (fLink f)), v) ∈ st.store) :
    loadOneB (n + 2) st f = (.ok c, st) := by
  unfold loadOneB
  rw [one_cached n st f c v hc hk]

theorem loadB_cached (n : Nat) (st : BState) (iri : String) (c : Item)
    (v : Stored) (hc : cacheGet st.cache iri = some c)
    (hk : (objKey (itemPath iri), v) ∈ st.store) :
    ∃ l, loadB (n + 1) st iri = (.ok l, st) ∧ l ≠ [] ∧ ∀ x ∈ l, x = c := by
  obtain ⟨l, heq, hne, hall⟩ :=
    fromPath_cached n st (filtersFromIRI iri) c v hc hk
  refine ⟨l, ?_, hne, hall⟩
  unfold loadB
  rw [heq]

/-! Preservation of the link and the type through the collection rewriting of
save. -/

theorem setSub_link (it : Item) (f : SubField) (v : Option Item) :
    (it.setSub f v).getLinkStr = it.getLinkStr := by
  cases it <;> cases f <;> rfl

theorem setSub_type (it : Item) (f : SubField) (v : Option Item) :
    (it.setSub f v).getTypeStr = it.getTypeStr := by
  cases it <;> cases f <;> rfl

theorem createColStep_link (acc : Item × List (Key × Stored)) (f : SubField) :
    (createColStep acc f).1.getLinkStr = acc.1.getLinkStr := by
  unfold createColStep
  cases acc.1.getSub f <;> simp [setSub_link]

theorem createColStep_type (acc : Item × List (Key × Stored)) (f : SubField) :
    (createColStep acc f).1.getTypeStr = acc.1.getTypeStr := by
  unfold createColStep
  cases acc.1.getSub f <;> simp [setSub_type]

theorem foldl_createColStep_link (l : List SubField) :
    ∀ acc : Item × List (Key × Stored),
      (l.foldl createColStep acc).1.getLinkStr = acc.1.getLinkStr := by
  induction l with
  | nil => intro acc; rfl
  | cons f rest ih =>
    intro acc
    rw [List.foldl_cons, ih, createColStep_link]

theorem foldl_createColStep_type (l : List SubField) :
    ∀ acc : Item × List (Key × Stored),
      (l.foldl createColStep acc).1.getTypeStr = acc.1.getTypeStr := by
  induction l with
  | nil => intro acc; rfl
  | cons f rest ih =>
    intro acc
    rw [List.foldl_cons, ih, createColStep_type]

theorem createCollectionsB_link (store : List (Key × Stored)) (it : Item) :
    (createCollectionsB store it).1.getLinkStr = it.getLinkStr := by
  unfold createCollectionsB
  by_cases h : it.isObjectB <;> by_cases h2 : it.getTypeStr ∈ actorTypes <;>
    simp [h, h2, foldl_createColStep_link]

theorem createCollectionsB_type (store : List (Key × Stored)) (it : Item) :
    (createCollectionsB store it).1.getTypeStr = it.getTypeStr := by
  unfold createCollectionsB
  by_cases h : it.isObjectB <;> by_cases h2 : it.getTypeStr ∈ actorTypes <;>
    simp [h, h2, foldl_createColStep_type]

theorem saveB_link (fail : Bool) (st : BState) (it : Item) :
    (saveB fail st it).1.getLinkStr = it.getLinkStr := by
  unfold saveB
  simp [createCollectionsB_link]

theorem saveB_type (fail : Bool) (st : BState) (it : Item) :
    (saveB fail st it).1.getTypeStr = it.getTypeStr := by
  unfold saveB
  simp [createCollectionsB_type]

theorem saveB_cache (fail : Bool) (st : BState) (it : Item) :
    (saveB fail st it).2.2.cache =
      cacheSet st.cache ((saveB fail st it).1.getLinkStr) ((saveB fail st it).1) := rfl

theorem saveB_err (fail : Bool) (st : BState) (it : Item) :
    (saveB fail st it).2.1 = if fail then .error .writeFailed else .ok () := rfl

theorem saveB_store_mem (st : BState) (it : Item) :
    (objKey (itemPath ((saveB false st it).1.getLinkStr)),
      Stored.item ((saveB false st it).1)) ∈ (saveB false st it).2.2.store := by
  rw [saveB_link]
  show (objKey (itemPath it.getLinkStr), Stored.item ((saveB false st it).1)) ∈
    putK (createCollectionsB st.store it).2 (objKey (itemPath it.getLinkStr))
      (Stored.item (createCollectionsB st.store it).1)
  exact mem_putK _ _ _

theorem iriEqB_refl (x : String) : iriEqB x x = true := by
  unfold iriEqB
  exact beq_self_eq_true _

theorem contains_of_count_zero (l : List String) (x : String)
    (h : countIRIEq l x = 0) : containsIRI l x = false := by
  unfold countIRIEq at h
  unfold containsIRI
  rw [List.any_eq_false]
  intro a ha
  have h2 := List.filter_eq_nil_iff.mp (List.length_eq_zero.mp h) a ha
  simpa using h2

theorem count_append_one (l : List String) (x : String) :
    countIRIEq (l ++ [x]) x = countIRIEq l x + 1 := by
  unfold countIRIEq
  rw [List.filter_append]
  simp [iriEqB_refl x]

theorem contains_append_self (l : List String) (x : String) :
    containsIRI (l ++ [x]) x = true := by
  unfold containsIRI
  rw [List.any_append]
  simp [iriEqB_refl x]

theorem removeFirst_of_not_contains (x : String) (l : List String)
    (h : containsIRI l x = false) : removeFirstIRI x l = l := by
  induction l with
  | nil => rfl
  | cons a rest ih =>
    unfold containsIRI at h
    simp only [List.any_cons, Bool.or_eq_false_iff] at h
    unfold removeFirstIRI
    rw [show iriEqB a x = false from h.1]
    simp only [Bool.false_eq_true, if_false]
    rw [ih h.2]

/-- onCollection when its guards pass: success, and the membership record of
the collection is rewritten through the update function. -/
theorem onCollectionB_run (st : BState) (c : String) (x : Item)
    (fn : List String → List String)
    (h0 : c ≠ "") (h1 : x.getLinkStr ≠ "") (h2 : isLocalIRI st.baseURL c = true) :
    onCollectionB st c x fn =
      (.ok (), ⟨st.baseURL, putK st.store (objKey (itemPath c))
        (.iris (fn (membershipAt st c))), st.cache⟩) := by
  unfold onCollectionB
  simp [h0, h1, h2]

/-- addCollectionOnObject is the identity when the owner of the collection is
cached, resolvable, and already exposes the collection. -/
theorem addColOnObject_skip (st : BState) (c : String) (owner : Item) (v : Stored)
    (hc : cacheGet st.cache (splitColIRI c).1 = some owner)
    (hadd : (ctAddTo (splitColIRI c).2 owner).2 = false)
    (hk : (objKey (itemPath (splitColIRI c).1), v) ∈ st.store) :
    addColOnObject 2 st c = st := by
  unfold addColOnObject
  by_cases hv : validCollection (splitColIRI c).2
  · simp only [hv, if_true]
    rw [loadOneB_cached 0 st (.iri (splitColIRI c).1) owner v hc hk]
    simp [hadd]
  · simp [hv]

theorem deleteCollectionsB_some (st : BState) (x : Item) :
    ∃ st2, deleteCollectionsB st (some x) = .ok st2 :=
  ⟨deleteCollectionsCore st x, rfl⟩

/-- AddTo is a no-op returning success when the owner is cached and already
exposes the collection and the member is already present in the membership
record. -/
theorem addToB_noop (st : BState) (c : String) (x owner : Item) (v : Stored)
    (h0 : c ≠ "") (h1 : x.getLinkStr ≠ "") (h2 : isLocalIRI st.baseURL c = true)
    (hcache : cacheGet st.cache (splitColIRI c).1 = some owner)
    (hadd : (ctAddTo (splitColIRI c).2 owner).2 = false)
    (hk : (objKey (itemPath (splitColIRI c).1), v) ∈ st.store)
    (hcon : containsIRI (membershipAt st c) x.getLinkStr = true)
    (hmem : getK st.store (objKey (itemPath c))
      = some (.iris (membershipAt st c))) :
    addToB 2 st c x = (.ok (), st) := by
  have hskip := addColOnObject_skip st c owner v hcache hadd hk
  unfold addToB
  rw [hskip, onCollectionB_run st c x _ h0 h1 h2]
  simp only [hcon, if_true]
  rw [putK_get_same _ _ _ hmem]

/-! The claim theorems. -/

/-- C1: for every valid item, calling Save and then Load on the IRI of the
saved item returns an item whose IRI and type equal those of the saved item.
Proved for every starting repository state and every item: after save, the
load of the saved link succeeds with a nonempty result, each element of which
carries the IRI and the type tag of the item given to Save. -/
theorem c1_save_load_roundtrip (st : BState) (it : Item) :
    ∃ l, (loadB 1 (saveB false st it).2.2 ((saveB false st it).1.getLinkStr)).1
        = .ok l ∧ l ≠ [] ∧
      ∀ x ∈ l, x.getLinkStr = it.getLinkStr ∧ x.getTypeStr = it.getTypeStr := by
  have hc : cacheGet ((saveB false st it).2.2).cache ((saveB false st it).1.getLinkStr)
      = some ((saveB false st it).1) := by
    rw [saveB_cache]
    exact cacheGet_cacheSet_same _ _ _
  obtain ⟨l, heq, hne, hall⟩ :=
    loadB_cached 0 _ _ _ _ hc (saveB_store_mem st it)
  refine ⟨l, ?_, hne, ?_⟩
  · rw [heq]
  · intro x hx
    rw [hall x hx]
    exact ⟨saveB_link _ _ _, saveB_type _ _ _⟩

/-- C3: after Save of an item, Delete of the item followed by Load at its IRI
returns the Tombstone rather than NotFound: the delete succeeds with a
Tombstone at the same IRI whose former type is the stored type of the item,
whose deletion timestamp is the deletion time, and whose audience holds only
the public collection, and the subsequent load returns that Tombstone. -/
theorem c3_delete_tombstone (st : BState) (it : Item) (now : Nat)
    (hcol : it.isCollectionB = false) :
    ∃ t, (deleteB 3 (saveB false st it).2.2 now it).1 = .ok t ∧
      t.getTypeStr = "Tombstone" ∧ t.getLinkStr = it.getLinkStr ∧
      t.formerOf = some it.getTypeStr ∧ t.deletedOf = some now ∧
      t.audOf = [publicNS] ∧
      ∃ l, (loadB 1 (deleteB 3 (saveB false st it).2.2 now it).2 it.getLinkStr).1
          = .ok l ∧ l ≠ [] ∧ ∀ x ∈ l, x = t := by
  have hc : cacheGet ((saveB false st it).2.2).cache it.getLinkStr
      = some ((saveB false st it).1) := by
    rw [saveB_cache, saveB_link]
    exact cacheGet_cacheSet_same _ _ _
  have hk : (objKey (itemPath it.getLinkStr),
      Stored.item ((saveB false st it).1)) ∈ ((saveB false st it).2.2).store := by
    have h := saveB_store_mem st it
    rwa [saveB_link] at h
  have hload : loadOneB 2 ((saveB false st it).2.2) (filtersForDelete it)
      = (.ok ((saveB false st it).1), (saveB false st it).2.2) :=
    loadOneB_cached 0 _ _ _ _ hc hk
  obtain ⟨st2, hdel⟩ :=
    deleteCollectionsB_some ((saveB false st it).2.2) ((saveB false st it).1)
  have hmain : deleteB 3 (saveB false st it).2.2 now it =
      (.ok (.obj it.getLinkStr "Tombstone" [publicNS] none none none none none
          none none none none none (some ((saveB false st it).1.getTypeStr))
          (some now) []),
       ⟨st2.baseURL,
        putK st2.store (objKey (itemPath it.getLinkStr))
          (.item (.obj it.getLinkStr "Tombstone" [publicNS] none none none none
            none none none none none none
            (some ((saveB false st it).1.getTypeStr)) (some now) [])),
        cacheSet st2.cache it.getLinkStr
          (.obj it.getLinkStr "Tombstone" [publicNS] none none none none none
            none none none none none (some ((saveB false st it).1.getTypeStr))
            (some now) [])⟩) := by
    rw [show (3 : Nat) = Nat.succ 2 from rfl]
    simp only [deleteB, hcol, Bool.false_eq_true, if_false]
    rw [hload]
    simp only []
    rw [hdel]
    rfl
  refine ⟨.obj it.getLinkStr "Tombstone" [publicNS] none none none none none
      none none none none none (some ((saveB false st it).1.getTypeStr))
      (some now) [], ?_, rfl, rfl, ?_, rfl, rfl, ?_⟩
  · rw [hmain]
  · simp [Item.formerOf, saveB_type]
  · have hc3 : cacheGet ((deleteB 3 (saveB false st it).2.2 now it).2).cache
        it.getLinkStr = some (.obj it.getLinkStr "Tombstone" [publicNS] none none
          none none none none none none none none
          (some ((saveB false st it).1.getTypeStr)) (some now) []) := by
      rw [hmain]
      exact cacheGet_cacheSet_same _ _ _
    have hk3 : (objKey (itemPath it.getLinkStr),
        Stored.item (.obj it.getLinkStr "Tombstone" [publicNS] none none none
          none none none none none none none
          (some ((saveB false st it).1.getTypeStr)) (some now) []))
        ∈ ((deleteB 3 (saveB false st it).2.2 now it).2).store := by
      rw [hmain]
      exact mem_putK _ _ _
    obtain ⟨l, heq, hne, hall⟩ := loadB_cached 0 _ _ _ _ hc3 hk3
    exact ⟨l, by rw [heq], hne, hall⟩

/-- C3 witness: the round trip through delete at a concrete note in the empty
repository. -/
theorem c3_delete_tombstone_witness :
    aNote.isCollectionB = false ∧
    (∃ t, (deleteB 3 (saveB false emptyB aNote).2.2 5 aNote).1 = .ok t ∧
      t.getTypeStr = "Tombstone" ∧ t.getLinkStr = aNote.getLinkStr ∧
      t.formerOf = some aNote.getTypeStr ∧ t.deletedOf = some 5 ∧
      t.audOf = [publicNS] ∧
      ∃ l, (loadB 1 (deleteB 3 (saveB false emptyB aNote).2.2 5 aNote).2
          aNote.getLinkStr).1 = .ok l ∧ l ≠ [] ∧ ∀ x ∈ l, x = t) :=
  ⟨by rfl, c3_delete_tombstone emptyB aNote 5 (by rfl)⟩

/-- C6: on the first save of an actor, the boltdb backend rewrites the
Following field of the actor from the liked collection IRI rather than the
following one (part 001 line 466 passes the liked IRI), so the field ends up
pointing at the liked collection and no bucket named following is created,
while the other four actor collections are handled as the claim states. -/
theorem c6_boltdb_following_liked :
    (boltCreateCollections c6Actor).1.getSub .following =
      some (.link "https://a/actors/jdoe/liked") ∧
    (boltCreateCollections c6Actor).2.contains "following" = false ∧
    (boltCreateCollections c6Actor).2.contains "liked" = true ∧
    (boltCreateCollections c6Actor).1.getSub .inbox =
      some (.link "https://a/actors/jdoe/inbox") :=
  ⟨by rfl, by rfl, by rfl, by rfl⟩

/-- C7 counterexample: in the store holding a creation activity whose object
is a second creation activity whose object is a note, loading the outer
activity expands the nested reference one level further: the object of the
expanded object is the full note record, not the bare IRI the claim requires
it to remain. -/
theorem c7_counterexample :
    c7probe c7Res.1 = some c7O ∧ c7O.isObjectB = true := ⟨by rfl, by rfl⟩

/-- C7 amended: loading a creation activity expands its object from a bare
IRI to the full stored record, and the expansion recurses with no depth
bound: when the expanded object is itself a creation activity with a bare
IRI object, that nested object is expanded as well. -/
theorem c7_expansion_recurses :
    c7Res.1 = .ok [c7A2Full] ∧
    c7A2Full.objOf = some c7A1Full ∧ c7A1Full.objOf = some c7O :=
  ⟨by rfl, by rfl, by rfl⟩

/-- C10: the claim states that deleting a non collection item with no stored
record completes without faulting and never dereferences the absent prior
item.  The badger source violates this: delete loads the prior item best
effort, gets nothing, and passes the nil interface to deleteCollections,
which calls GetType on it, a nil interface dereference; the boltdb delete
dereferences the nil item at the FormerType field the same way.  The theorem
evaluates the embedded delete at the failing input. -/
theorem c10_delete_missing_panics :
    (deleteB 3 emptyB 5 aNote).1 = .error .panicked := by rfl

/-- C2 counterexample: in the sqlite backend two identical AddTo calls leave
two membership rows for the member, not one: the INSERT is unconditional, so
the second call is not a no-op and the membership set holds two entries whose
IRI equals that of the member. -/
theorem c2_counterexample :
    c2SqlTwice.collections =
      [(c2col, "https://a/objects/x"), (c2col, "https://a/objects/x")] ∧
    (c2SqlTwice.collections.filter
      (fun r => r.1 == c2col && r.2 == c2x.getLinkStr)).length ≠ 1 :=
  ⟨by rfl, by decide⟩

/-- C2 amended: in the badger backend AddTo is idempotent: when the owner of
the collection is cached and already exposes it, a first AddTo appends the
member once, and a second identical AddTo is a no-op returning success and
leaving the state unchanged, with exactly one membership entry for the
member.  In the sqlite backend AddTo INSERTs unconditionally, so two calls
leave two rows. -/
theorem c2_addto_idempotent :
    (∀ (st : BState) (c : String) (x owner : Item) (v : Stored),
      c ≠ "" →
      x.getLinkStr ≠ "" →
      isLocalIRI st.baseURL c = true →
      cacheGet st.cache (splitColIRI c).1 = some owner →
      (ctAddTo (splitColIRI c).2 owner).2 = false →
      (objKey (itemPath (splitColIRI c).1), v) ∈ st.store →
      countIRIEq (membershipAt st c) x.getLinkStr = 0 →
      (addToB 2 st c x).1 = .ok () ∧
      membershipAt (addToB 2 st c x).2 c = membershipAt st c ++ [x.getLinkStr] ∧
      countIRIEq (membershipAt (addToB 2 st c x).2 c) x.getLinkStr = 1 ∧
      addToB 2 (addToB 2 st c x).2 c x = (.ok (), (addToB 2 st c x).2)) ∧
    c2SqlTwice.collections.length = 2 := by
  refine ⟨?_, by rfl⟩
  intro st c x owner v h0 h1 h2 hcache hadd hk hzero
  have hskip1 : addColOnObject 2 st c = st :=
    addColOnObject_skip st c owner v hcache hadd hk
  have hrun1 : addToB 2 st c x = (.ok (), ⟨st.baseURL,
      putK st.store (objKey (itemPath c))
        (.iris (membershipAt st c ++ [x.getLinkStr])), st.cache⟩) := by
    unfold addToB
    rw [hskip1, onCollectionB_run st c x _ h0 h1 h2]
    simp only [contains_of_count_zero _ _ hzero, Bool.false_eq_true, if_false]
  have hm1 : membershipAt (addToB 2 st c x).2 c
      = membershipAt st c ++ [x.getLinkStr] := by
    rw [hrun1]
    unfold membershipAt
    rw [getK_putK_same]
  refine ⟨by rw [hrun1], hm1, ?_, ?_⟩
  · rw [hm1, count_append_one, hzero]
  · have hcache2 : cacheGet ((addToB 2 st c x).2).cache (splitColIRI c).1
        = some owner := by rw [hrun1]; exact hcache
    have hk2 : ∃ v2, (objKey (itemPath (splitColIRI c).1), v2)
        ∈ ((addToB 2 st c x).2).store := by
      rw [hrun1]
      by_cases he : objKey (itemPath (splitColIRI c).1) = objKey (itemPath c)
      · exact ⟨.iris (membershipAt st c ++ [x.getLinkStr]),
          by rw [he]; exact mem_putK _ _ _⟩
      · exact ⟨v, mem_putK_ne _ _ _ _ _ hk he⟩
    obtain ⟨v2, hk2⟩ := hk2
    have h2b : isLocalIRI ((addToB 2 st c x).2).baseURL c = true := by
      rw [hrun1]; exact h2
    have hcon : containsIRI (membershipAt (addToB 2 st c x).2 c) x.getLinkStr
        = true := by
      rw [hm1]
      exact contains_append_self _ _
    have hmem2 : getK ((addToB 2 st c x).2).store (objKey (itemPath c))
        = some (.iris (membershipAt (addToB 2 st c x).2 c)) := by
      rw [hm1, hrun1]
      exact getK_putK_same _ _ _
    exact addToB_noop _ c x owner v2 h0 h1 h2b hcache2 hadd hk2 hcon hmem2

/-- C2 witness: the badger idempotence at a concrete followers collection
whose owner actor is stored and cached. -/
theorem c2_addto_idempotent_witness :
    countIRIEq (membershipAt c2St c2col) c2x.getLinkStr = 0 ∧
    ((addToB 2 c2St c2col c2x).1 = .ok () ∧
     membershipAt (addToB 2 c2St c2col c2x).2 c2col
        = membershipAt c2St c2col ++ [c2x.getLinkStr] ∧
     countIRIEq (membershipAt (addToB 2 c2St c2col c2x).2 c2col)
        c2x.getLinkStr = 1 ∧
     addToB 2 (addToB 2 c2St c2col c2x).2 c2col c2x
        = (.ok (), (addToB 2 c2St c2col c2x).2)) :=
  ⟨by rfl, c2_addto_idempotent.1 c2St c2col c2x c2owner (.item c2owner)
    (by decide) (by decide) (by rfl) (by rfl) (by rfl)
    (List.mem_cons_self _ _) (by rfl)⟩

/-- C4 counterexample: the sqlite Delete of an actor with a nonempty
followers collection leaves the followers membership row in place: the
cascade delete call is commented out in the source, so the collection still
resolves afterwards, while the claim requires it cascade deleted in every
backend. -/
theorem c4_counterexample :
    c4SqlDel.2.collections =
      [("https://a/actors/1/followers", "https://a/actors/2")] ∧
    c4SqlDel.2.collections ≠ [] := ⟨by rfl, by decide⟩

/-- C4 amended: only the badger backend cascade deletes.  There, deleting a
stored actor with a nonempty followers collection removes the collection
record, so the followers IRI no longer resolves (NotFound), and a Tombstone
whose former type is the actor type is written at the actor IRI.  In the
boltdb backend the cascade is a no-op: the sub buckets are created under
their base segment names but deleteCollectionFromBucket passes the full IRI
to DeleteBucket, so no bucket matches and the followers bucket survives the
delete.  The sqlite Delete writes the same Tombstone but cascades nothing:
the followers membership rows survive. -/
theorem c4_delete_cascade :
    membershipAt c4St2 "https://a/actors/1/followers" = ["https://a/actors/2"] ∧
    (loadB 2 c4Del.2 "https://a/actors/1/followers").1 = .error .notFound ∧
    c4Del.1 = .ok c4Tomb ∧
    c4Tomb.formerOf = some "Person" ∧
    c4Tomb.getLinkStr = "https://a/actors/1" ∧
    (boltCreateCollections c4Actor).2 = ["followers"] ∧
    boltDeleteCollectionsFromBucket (boltCreateCollections c4Actor).2 c4Actor
      = ["followers"] ∧
    c4SqlDel.1 = .ok c4Tomb ∧
    c4SqlDel.2.collections = c4Sql.collections :=
  ⟨by rfl, by rfl, by rfl, by rfl, by rfl, by rfl, by rfl, by rfl, by rfl⟩

/-- C5 counterexample: in the sqlite backend, RemoveFrom on a membership set
holding the member twice removes both rows: none remains, while the claim
requires exactly one removed and the duplicate kept. -/
theorem c5_counterexample :
    (c5Sql.collections.filter
        (fun r => r.1 == c2col && r.2 == c2x.getLinkStr)).length = 2 ∧
    ((sqliteRemoveFrom c5Sql c2col c2x).2.collections.filter
        (fun r => r.1 == c2col && r.2 == c2x.getLinkStr)).length = 0 ∧
    ((sqliteRemoveFrom c5Sql c2col c2x).2.collections.filter
        (fun r => r.1 == c2col && r.2 == c2x.getLinkStr)).length ≠ 1 :=
  ⟨by rfl, by rfl, by decide⟩

/-- C5 amended: in the badger backend RemoveFrom succeeds and rewrites the
membership set by removing exactly the first entry whose IRI equals the
target under link equality, so a duplicate survives and an absent member
leaves the set unchanged; the sqlite backend instead deletes every matching
row. -/
theorem c5_removefrom_first :
    (∀ (st : BState) (c : String) (x : Item),
      c ≠ "" → x.getLinkStr ≠ "" → isLocalIRI st.baseURL c = true →
      (removeFromB st c x).1 = .ok () ∧
      membershipAt (removeFromB st c x).2 c
          = removeFirstIRI x.getLinkStr (membershipAt st c) ∧
      (containsIRI (membershipAt st c) x.getLinkStr = false →
        membershipAt (removeFromB st c x).2 c = membershipAt st c)) ∧
    (sqliteRemoveFrom c5Sql c2col c2x).2.collections = [] := by
  refine ⟨?_, by rfl⟩
  intro st c x h0 h1 h2
  have hrun : removeFromB st c x = (.ok (), ⟨st.baseURL,
      putK st.store (objKey (itemPath c))
        (.iris (removeFirstIRI x.getLinkStr (membershipAt st c))), st.cache⟩) := by
    unfold removeFromB
    rw [onCollectionB_run st c x _ h0 h1 h2]
  have hm : membershipAt (removeFromB st c x).2 c
      = removeFirstIRI x.getLinkStr (membershipAt st c) := by
    rw [hrun]
    unfold membershipAt
    rw [getK_putK_same]
  refine ⟨by rw [hrun], hm, ?_⟩
  intro hnc
  rw [hm, removeFirst_of_not_contains _ _ hnc]

/-- C5 witness: RemoveFrom at a concrete collection with no matching member
is a successful no-op. -/
theorem c5_removefrom_first_witness :
    containsIRI (membershipAt c2St c2col) c2x.getLinkStr = false ∧
    ((removeFromB c2St c2col c2x).1 = .ok () ∧
     membershipAt (removeFromB c2St c2col c2x).2 c2col
        = removeFirstIRI c2x.getLinkStr (membershipAt c2St c2col) ∧
     membershipAt (removeFromB c2St c2col c2x).2 c2col
        = membershipAt c2St c2col) :=
  have h := c5_removefrom_first.1 c2St c2col c2x (by decide) (by decide) (by rfl)
  ⟨by rfl, h.1, h.2.1, h.2.2 (by rfl)⟩

/-- C8 counterexample: in the sqlite backend a Save whose substrate write
fails returns the error before touching the cache: the cache entry for the
IRI of the item is absent afterwards, while the claim requires it set in
every backend whether the write succeeds or fails. -/
theorem c8_counterexample :
    cacheGet (sqliteSave true emptyS aNote).2.2.cache aNote.getLinkStr = none ∧
    (sqliteSave true emptyS aNote).2.1 = .error .writeFailed := ⟨by rfl, by rfl⟩

/-- C8 amended: in the badger backend Save sets the cache entry for the link
of the saved item unconditionally, whether the substrate write succeeded or
failed, and returns the write error to the caller; in the sqlite backend a
failed write returns the error with the state, including the cache, left
untouched. -/
theorem c8_save_cache_unconditional :
    (∀ (st : BState) (it : Item) (fail : Bool),
      cacheGet ((saveB fail st it).2.2).cache ((saveB fail st it).1.getLinkStr)
          = some ((saveB fail st it).1) ∧
      (saveB fail st it).2.1 = (if fail then .error .writeFailed else .ok ())) ∧
    ((sqliteSave true emptyS aNote).2.1 = .error .writeFailed ∧
     (sqliteSave true emptyS aNote).2.2 = emptyS) := by
  refine ⟨?_, by rfl, by rfl⟩
  intro st it fail
  exact ⟨by rw [saveB_cache]; exact cacheGet_cacheSet_same _ _ _, saveB_err _ _ _⟩

/-- C9 counterexample: in the boltdb backend PasswordCheck with no metadata
record at all is not NotFound classified: when the bucket path is absent it
returns the freshly built generic error of part 001 line 825 (the not-found
error of descendInBucket is discarded), and when the bucket exists without a
metadata record it returns the annotated unmarshal failure of line 830, a
decode error that the taxonomy of the spec classifies NotValid.  Neither is
NotFound. -/
theorem c9_counterexample :
    boltPasswordCheck c9Bolt0 aNote "s3cret" = .error .generic ∧
    isNotFoundErr .generic = false ∧ isUnauthorizedErr .generic = false ∧
    boltPasswordCheck c9Bolt1 aNote "s3cret" = .error .decodeErrAnn ∧
    isNotFoundErr .decodeErrAnn = false ∧ isNotValidErr .decodeErrAnn = true :=
  ⟨by rfl, by rfl, by rfl, by rfl, by rfl, by rfl⟩

/-- C9 amended: in every modelled backend a failed bcrypt comparison yields
the Unauthorized condition, not a generic error, and checking the secret
previously stored by PasswordSet succeeds.  With no metadata record at all,
the badger backend returns the annotated substrate key-not-found error,
NotFound classified and distinct from Unauthorized; the boltdb backend
instead returns a generic error or an annotated decode failure, distinct
from Unauthorized but not NotFound classified. -/
theorem c9_password_check (st : BState) (bst : BoltMeta) (it : Item)
    (pw pw2 : String) (salt : Nat)
    (hne : pw2 ≠ pw)
    (hmeta : getK st.store (metaKey (itemPath it.getLinkStr)) = none)
    (hbmeta : boltLookupMeta bst.meta (String.mk (itemPath it.getLinkStr)) = none) :
    passwordCheckB (passwordSetB st it pw salt) it pw = .ok () ∧
    (∃ e, passwordCheckB (passwordSetB st it pw salt) it pw2 = .error e ∧
      isUnauthorizedErr e = true ∧ isNotFoundErr e = false) ∧
    (∃ e, passwordCheckB st it pw = .error e ∧
      isNotFoundErr e = true ∧ isUnauthorizedErr e = false) ∧
    boltPasswordCheck (boltPasswordSet bst it pw salt) it pw = .ok () ∧
    (∃ e, boltPasswordCheck (boltPasswordSet bst it pw salt) it pw2 = .error e ∧
      isUnauthorizedErr e = true ∧ isNotFoundErr e = false) ∧
    (∃ e, boltPasswordCheck bst it pw = .error e ∧
      isNotFoundErr e = false ∧ isUnauthorizedErr e = false) := by
  have hget : getK ((passwordSetB st it pw salt)).store
      (metaKey (itemPath it.getLinkStr))
      = some (.meta ⟨bcryptGenerate salt pw⟩) := by
    unfold passwordSetB
    exact getK_putK_same _ _ _
  have hcmp : bcryptCompare (bcryptGenerate salt pw) pw2 = false := by
    unfold bcryptCompare bcryptGenerate
    exact beq_eq_false_iff_ne.mpr (Ne.symm hne)
  refine ⟨?_, ⟨.unauthorized, ?_, rfl, rfl⟩, ⟨.keyNotFoundAnn, ?_, rfl, rfl⟩,
    ?_, ⟨.unauthorized, ?_, rfl, rfl⟩, ?_⟩
  · unfold passwordCheckB
    rw [hget]
    simp [bcryptCompare, bcryptGenerate]
  · unfold passwordCheckB
    rw [hget]
    simp only [hcmp, Bool.false_eq_true, if_false]
  · unfold passwordCheckB
    rw [hmeta]
  · unfold boltPasswordCheck boltPasswordSet
    simp only [boltHasBucket_set, Bool.not_true, Bool.false_eq_true, if_false,
      boltLookupMeta_put_same]
    simp [bcryptCompare, bcryptGenerate]
  · unfold boltPasswordCheck boltPasswordSet
    simp only [boltHasBucket_set, Bool.not_true, Bool.false_eq_true, if_false,
      boltLookupMeta_put_same]
    simp only [hcmp, Bool.false_eq_true, if_false]
  · by_cases hb : boltHasBucket bst.buckets (String.mk (itemPath it.getLinkStr))
    · refine ⟨.decodeErrAnn, ?_, rfl, rfl⟩
      unfold boltPasswordCheck
      simp only [hb, Bool.not_true, Bool.false_eq_true, if_false, hbmeta]
    · refine ⟨.generic, ?_, rfl, rfl⟩
      unfold boltPasswordCheck
      simp [hb]

/-- C9 witness: the password outcomes of both modelled backends at a concrete
note and secrets in the empty repositories. -/
theorem c9_password_check_witness :
    "wrong" ≠ "s3cret" ∧
    getK emptyB.store (metaKey (itemPath aNote.getLinkStr)) = none ∧
    boltLookupMeta c9Bolt0.meta (String.mk (itemPath aNote.getLinkStr)) = none ∧
    (passwordCheckB (passwordSetB emptyB aNote "s3cret" 1) aNote "s3cret" = .ok () ∧
     (∃ e, passwordCheckB (passwordSetB emptyB aNote "s3cret" 1) aNote "wrong"
        = .error e ∧ isUnauthorizedErr e = true ∧ isNotFoundErr e = false) ∧
     (∃ e, passwordCheckB emptyB aNote "s3cret" = .error e ∧
        isNotFoundErr e = true ∧ isUnauthorizedErr e = false) ∧
     boltPasswordCheck (boltPasswordSet c9Bolt0 aNote "s3cret" 1) aNote "s3cret"
        = .ok () ∧
     (∃ e, boltPasswordCheck (boltPasswordSet c9Bolt0 aNote "s3cret" 1) aNote
        "wrong" = .error e ∧ isUnauthorizedErr e = true ∧ isNotFoundErr e = false) ∧
     (∃ e, boltPasswordCheck c9Bolt0 aNote "s3cret" = .error e ∧
        isNotFoundErr e = false ∧ isUnauthorizedErr e = false)) :=
  ⟨by decide, by rfl, by rfl, c9_password_check emptyB c9Bolt0 aNote "s3cret"
    "wrong" 1 (by decide) (by rfl) (by rfl)⟩

end Fedbox
